import Mathlib

/-!
Verification development for the LZTVPlus private media-library core: the
metadata synchronization pipeline (`POST /api/openlist/refresh`), the paginated
listing route (`GET /api/openlist/list`), the OpenList storage client
(`src/lib/openlist.client.ts`) and the TMDB search client
(`src/lib/tmdb.search.ts`).

The TypeScript sources are shallowly embedded: every external call (OpenList
HTTP calls, TMDB search, the content download, the admin-config save) is
represented by the outcome it produces, supplied through an environment
record; the route handlers then become pure Lean functions of that
environment.  JavaScript objects keyed by folder name are embedded as
association lists in insertion order (the folder names of interest are not
array-index keys, so `Object.entries` iterates them in insertion order);
JavaScript `||` string fallbacks are embedded by `strOrElse`, which treats
both `undefined` and the empty string as falsy, exactly as the source does.
-/

/-- Record stored per folder in `metainfo.json`, mirroring the object literal
built at lines 179-188 of the refresh route (`tmdb_id`, `title`,
`poster_path`, `release_date`, `overview`, `vote_average`, `media_type`,
`last_updated`).  `poster_path` may be `null` in TMDB results, hence
`Option`.  `vote_average` is an abstract numeric value; no arithmetic is ever
performed on it, it is only copied. -/
structure FolderRecord where
  tmdb_id : Int
  title : String
  poster_path : Option String
  release_date : String
  overview : String
  vote_average : Rat
  media_type : String
  last_updated : Nat
deriving DecidableEq, Repr

/-- The `folders` object of a MetaInfo document: a JavaScript object mapping
folder names to records, embedded as an association list in insertion order. -/
abbrev Folders := List (String × FolderRecord)

/-- The persisted/cached MetaInfo document
(`{ folders: { [name]: FolderRecord }, last_refresh: number }`). -/
structure MetaInfo where
  folders : Folders
  last_refresh : Nat
deriving DecidableEq, Repr

/-- Property lookup `obj[name]` on the embedded `folders` object. -/
def lookupF (k : String) : Folders → Option FolderRecord
  | [] => none
  | (n, r) :: rest => if n = k then some r else lookupF k rest

/-- JavaScript `a || b` for an optional string `a`: both a missing field and
the empty string are falsy and fall through to `b`. -/
def strOrElse (a : Option String) (b : String) : String :=
  match a with
  | none => b
  | some s => if s = "" then b else s

/-- One result entry of the TMDB multi-search response
(`TMDBSearchResult` in `src/lib/tmdb.search.ts`).  `media_type` is kept as a
raw string: the provider also returns entries of other types (for example
`person`), which is exactly why the client filters on it. -/
structure TMDBItem where
  id : Int
  title : Option String
  name : Option String
  poster_path : Option String
  release_date : Option String
  first_air_date : Option String
  overview : String
  vote_average : Rat
  media_type : String
deriving DecidableEq, Repr

/-- Return value of `searchTMDB`: `{ code, result }`. -/
structure SearchReturn where
  code : Nat
  result : Option TMDBItem
deriving DecidableEq, Repr

/-- Outcome of the single `fetch` performed by `searchTMDB`:
the fetch (or the body parse) threw, or it returned a non-ok status, or it
returned a parsed body whose `results` field is the given list. -/
inductive TMDBFetchOutcome where
  | threw : TMDBFetchOutcome
  | notOk (status : Nat) : TMDBFetchOutcome
  | ok (results : List TMDBItem) : TMDBFetchOutcome
deriving DecidableEq, Repr

/-- Embedding of `searchTMDB` (`src/lib/tmdb.search.ts`, lines 175-225):
empty API key returns `{code: 400, result: null}` without attempting the
call; a thrown fetch is caught and mapped to code 500; a non-ok response is
mapped to its status with a null result; otherwise the results are filtered
to media types `movie` and `tv`, an empty remainder yields
`{code: 404, result: null}`, and otherwise the first remaining entry is
returned with code 200. -/
def searchTMDB (apiKey : String) (resp : TMDBFetchOutcome) : SearchReturn :=
  if apiKey = "" then ⟨400, none⟩
  else
    match resp with
    | .threw => ⟨500, none⟩
    | .notOk status => ⟨status, none⟩
    | .ok results =>
      let validResults := results.filter fun item =>
        item.media_type == "movie" || item.media_type == "tv"
      match validResults with
      | [] => ⟨404, none⟩
      | r :: _ => ⟨200, some r⟩

/-- Embedding of `getTMDBImageUrl` (`src/lib/tmdb.search.ts`, lines 230-236)
at the default size `w500`: a null or empty path yields the empty string. -/
def getTMDBImageUrl (path : Option String) : String :=
  match path with
  | none => ""
  | some p => if p = "" then "" else "https://image.tmdb.org/t/p/w500" ++ p

/-- A directory entry of an OpenList listing response (`OpenListFile`). -/
structure OpenListFile where
  name : String
  size : Nat
  is_dir : Bool
  modified : String
deriving DecidableEq, Repr

/-- Body of the `POST /api/fs/list` request built by
`OpenListClient.listDirectory` (`src/lib/openlist.client.ts`, lines 46-68). -/
structure ListDirRequest where
  path : String
  password : String
  refresh : Bool
  page : Nat
  per_page : Nat
deriving DecidableEq, Repr

/-- Default `page` parameter of `listDirectory`. -/
def listDirectoryDefaultPage : Nat := 1

/-- Default `perPage` parameter of `listDirectory`. -/
def listDirectoryDefaultPerPage : Nat := 100

/-- The request body `{ path, password: '', refresh: false, page, per_page }`
sent by `listDirectory`. -/
def listDirectoryRequest (path : String) (page perPage : Nat) : ListDirRequest :=
  ⟨path, "", false, page, perPage⟩

/-! ### The paginated listing view (`GET /api/openlist/list`) -/

/-- One element of the `list` array built at lines 156-168 of the list
route. -/
structure VideoItem where
  id : String
  folder : String
  title : String
  poster : String
  releaseDate : String
  overview : String
  voteAverage : Rat
  mediaType : String
  lastUpdated : Nat
deriving DecidableEq, Repr

/-- The mapping applied to each `[folderName, info]` entry of
`Object.entries(metaInfo.folders)`. -/
def toVideoItem (p : String × FolderRecord) : VideoItem :=
  { id := p.1
    folder := p.1
    title := p.2.title
    poster := getTMDBImageUrl p.2.poster_path
    releaseDate := p.2.release_date
    overview := p.2.overview
    voteAverage := p.2.vote_average
    mediaType := p.2.media_type
    lastUpdated := p.2.last_updated }

/-- Stable insertion of `x` into a list already sorted by `le`: `x` is placed
after every element `y` with `le y x`, so an element inserted later stays
after earlier equal elements. -/
def insertSorted (le : VideoItem → VideoItem → Bool) (x : VideoItem) :
    List VideoItem → List VideoItem
  | [] => [x]
  | y :: ys => if le y x then y :: insertSorted le x ys else x :: y :: ys

/-- Embedding of `Array.prototype.sort` with a consistent comparator:
ECMAScript sort is stable, so the sorted result is the unique stable
reordering in which `a` precedes `b` whenever `le a b` holds strictly; a
left-to-right stable insertion sort produces exactly that list. -/
def jsSortBy (le : VideoItem → VideoItem → Bool) (l : List VideoItem) :
    List VideoItem :=
  l.foldl (fun acc x => insertSorted le x acc) []

/-- The comparator `(a, b) => b.lastUpdated - a.lastUpdated` keeps `a` before
`b` exactly when the comparator value is nonpositive, i.e. when
`b.lastUpdated ≤ a.lastUpdated` (descending by `lastUpdated`). -/
def byLastUpdatedDesc (a b : VideoItem) : Bool :=
  decide (b.lastUpdated ≤ a.lastUpdated)

/-- ECMAScript `Array.prototype.slice(start, end)`: negative indices count
from the end of the array, indices are clamped to `[0, length]`, and a
nonpositive extent yields the empty array. -/
def jsSlice (l : List VideoItem) (s e : Int) : List VideoItem :=
  let len : Int := l.length
  let k : Int := if s < 0 then max (len + s) 0 else min s len
  let fin : Int := if e < 0 then max (len + e) 0 else min e len
  (l.drop k.toNat).take (fin - k).toNat

/-- `Math.ceil(total / pageSize)` as computed at line 184 of the list route,
for the positive page sizes the route is exercised with (`⌈a / b⌉` equals
`⌊(a + b - 1) / b⌋` whenever `b > 0`). -/
def ceilPages (total : Nat) (pageSize : Int) : Int :=
  ((total : Int) + pageSize - 1).ediv pageSize

/-- The JSON body returned by the list route on the successful path
(lines 178-185): `{ list, total, page, pageSize, totalPages }`. -/
structure ListPage where
  list : List VideoItem
  total : Nat
  page : Int
  pageSize : Int
  totalPages : Int
deriving DecidableEq, Repr

/-- Embedding of the listing view of `GET /api/openlist/list`
(lines 153-185), applied after the document has been resolved from the cache
(the claims under consideration address the cached-document path):
flatten `folders` to view records, sort descending by `lastUpdated`
(stable), then slice out the 1-based page `[(page-1)*pageSize,
(page-1)*pageSize + pageSize)` with JavaScript slice semantics. -/
def listVideos (m : MetaInfo) (page pageSize : Int) : ListPage :=
  let allVideos := m.folders.map toVideoItem
  let sorted := jsSortBy byLastUpdatedDesc allVideos
  let total := allVideos.length
  let start := (page - 1) * pageSize
  let pageList := jsSlice sorted start (start + pageSize)
  ⟨pageList, total, page, pageSize, ceilPages total pageSize⟩

/-! ### The synchronization pipeline (`POST /api/openlist/refresh`)

The refresh route is embedded as a pure function of an environment that
records the outcome of each external call of one run, of the initial cache
content for the root path, and of the root path itself.

The MetaInfo cache (`src/lib/openlist-cache.ts`) is not among the sources at
hand; it is modelled from the spec.  Modelled from the spec: MetaInfoCache is
a process-wide keyed store mapping a root path to its in-memory metadata
document, with explicit get/set/invalidate and no implicit expiry, whose
stored document "is mutated only by SyncPipeline (adding/updating `folders`
entries, bumping `lastRefresh`)" — that is, `getCachedMetaInfo` hands out the
stored document itself, not a copy, exactly as a JavaScript `Map` of object
references does.  Consequently, when the refresh route obtains `metaInfo`
from the cache (a warm run), the in-place mutations it performs at lines 179
and 210 are immediately visible to any concurrent reader of the cache; when
the cache misses (a cold run) the document under construction is a fresh
object and the cache entry stays absent until the final commit.  The
embedding makes this explicit by recording, in `cacheTrace`, the cache
content observable at each `await` suspension point of the run. -/

/-- Outcome of the existing-document load attempted at lines 62-112 of the
refresh route when the cache misses.  `client.getFile` throwing, returning a
code other than 200, or returning no `raw_url` all leave `existingMetaInfo`
null (`missingFile`); a throwing or non-ok content download (`fetchFailed`)
and a throwing `JSON.parse` (`parseFailed`) are caught by the surrounding
try, also leaving it null.  A successful parse can yield a falsy value
(`null`, `0`, `""`, `false`), in which case the `||` at line 114 substitutes
the fresh empty document; a truthy non-object primitive (`parsedPrimitive`),
on which the repair assignment `metaInfo.folders = {}` at line 122 throws a
TypeError (route modules are strict-mode code); or an object
(`parsedObj`), whose `folders` field is `some` mapping when it is an object
and `none` when missing or non-object (then repaired to empty). -/
inductive LoadOutcome where
  | missingFile : LoadOutcome
  | fetchFailed : LoadOutcome
  | parseFailed : LoadOutcome
  | parsedFalsy : LoadOutcome
  | parsedPrimitive : LoadOutcome
  | parsedObj (folders : Option Folders) (last_refresh : Nat) : LoadOutcome
deriving DecidableEq, Repr

/-- Outcome of `client.listDirectory(rootPath)` at line 132: either the
underlying fetch was non-ok and the client threw, or a response
`{ code, data: { content } }` was returned. -/
inductive ListOutcome where
  | threw : ListOutcome
  | resp (code : Nat) (content : List OpenListFile) : ListOutcome
deriving DecidableEq, Repr

/-- The `content` list carried by a listing outcome (empty when the call
threw). -/
def ListOutcome.content : ListOutcome → List OpenListFile
  | .threw => []
  | .resp _ c => c

/-- Environment of one refresh run: the outcome of every external call the
run may perform, and the `Date.now()` readings it may take.  `search` maps a
folder name to the value `searchTMDB` returns for it (that function never
throws: it catches internally), `recordTime` is the `Date.now()` taken when
the record for that folder is built, `nowFinish` the one taken at line 210
just before the upload, `uploadOk` whether `client.uploadFile` succeeded,
`verifyOk` whether the best-effort verification read-back succeeded (its
failure is swallowed at lines 251-253), and `saveConfigOk` whether the final
`db.saveAdminConfig` at line 263 succeeded. -/
structure RefreshEnv where
  load : LoadOutcome
  nowStart : Nat
  listing : ListOutcome
  search : String → SearchReturn
  recordTime : String → Nat
  nowFinish : Nat
  uploadOk : Bool
  verifyOk : Bool
  saveConfigOk : Bool

/-- The `metaInfo` document in scope after lines 62-123: the cached document
when the cache hits; otherwise the loaded document (with its `folders`
repaired to empty when invalid) or the fresh empty document
`{ folders: {}, last_refresh: Date.now() }` when the load failed or parsed
falsy.  `none` encodes the one load outcome on which the run throws before
reaching the listing: a truthy non-object primitive, whose repair assignment
raises a TypeError caught only by the outer handler. -/
def initMeta (cache0 : Option MetaInfo) (load : LoadOutcome) (nowStart : Nat) :
    Option MetaInfo :=
  match cache0 with
  | some m => some m
  | none =>
    match load with
    | .missingFile => some ⟨[], nowStart⟩
    | .fetchFailed => some ⟨[], nowStart⟩
    | .parseFailed => some ⟨[], nowStart⟩
    | .parsedFalsy => some ⟨[], nowStart⟩
    | .parsedPrimitive => none
    | .parsedObj fs lr => some ⟨fs.getD [], lr⟩

/-- The record the refresh route stores for a folder on a successful search
(lines 179-188): `title` and `release_date` fall back through `||`, the
other fields are copied, `last_updated` is the current time. -/
def mkFolderRecord (r : TMDBItem) (folderName : String) (t : Nat) : FolderRecord :=
  { tmdb_id := r.id
    title := strOrElse r.title (strOrElse r.name folderName)
    poster_path := r.poster_path
    release_date := strOrElse r.release_date (strOrElse r.first_air_date "")
    overview := r.overview
    vote_average := r.vote_average
    media_type := r.media_type
    last_updated := t }

/-- One search attempt of the enrichment loop (lines 164-199): when the
search result has code 200 and a non-null result, the new record is added to
the `folders` object (a new key, appended in insertion order) and the
attempt counts as a hit; otherwise `folders` is unchanged and the attempt
counts as an error. -/
def searchStep (env : RefreshEnv) (d : OpenListFile) (fs : Folders) :
    Folders × Bool :=
  match (env.search d.name).result with
  | some r =>
    if (env.search d.name).code = 200 then
      (fs ++ [(d.name, mkFolderRecord r d.name (env.recordTime d.name))], true)
    else (fs, false)
  | none => (fs, false)

/-- Result of the enrichment loop: the final `folders` object, the two
counters, the folder names passed to `searchTMDB` in call order, and the
cache content observable at the suspension point inside each non-skipped
iteration (the awaited 300 ms delay, reached after the record for that
iteration has been stored). -/
structure LoopResult where
  folders : Folders
  newCount : Nat
  errorCount : Nat
  searchCalls : List String
  trace : List (Option MetaInfo)
deriving Repr

/-- The enrichment loop over the listed directories (lines 152-207): a
folder whose name is already a key of `folders` is skipped without any
await; otherwise `searchTMDB` is called and the step applied, and the loop
then suspends on the inter-request delay.  `obs` gives the cache content
observable while the current `folders` object is in the given state. -/
def enrichLoop (env : RefreshEnv) (obs : Folders → Option MetaInfo) :
    List OpenListFile → Folders → Nat → Nat → LoopResult
  | [], fs, n, e => ⟨fs, n, e, [], []⟩
  | d :: rest, fs, n, e =>
    match lookupF d.name fs with
    | some _ => enrichLoop env obs rest fs n e
    | none =>
      let stepRes := searchStep env d fs
      let res := enrichLoop env obs rest stepRes.1
        (if stepRes.2 then n + 1 else n) (if stepRes.2 then e else e + 1)
      ⟨res.folders, res.newCount, res.errorCount,
        d.name :: res.searchCalls, obs stepRes.1 :: res.trace⟩

/-- The cache content a concurrent reader observes while the run's local
`folders` object is in state `fs`: on a warm run the cached document is the
very object being mutated (its `last_refresh` still the old one until line
210), on a cold run the cache entry is absent. -/
def obsFor (cache0 : Option MetaInfo) : Folders → Option MetaInfo := fun fs =>
  match cache0 with
  | some m => some ⟨fs, m.last_refresh⟩
  | none => none

/-- The cache content observable once `last_refresh` has been set at line
210 but before the commit at lines 256-257: the full new document on a warm
run (in place), still absent on a cold run. -/
def committedView (cache0 : Option MetaInfo) (finalDoc : MetaInfo) :
    Option MetaInfo :=
  match cache0 with
  | some _ => some finalDoc
  | none => none

/-- The enrichment loop of one run: over the directory entries of the
listing, starting from the resolved document's `folders` and zeroed
counters. -/
def runLoop (env : RefreshEnv) (cache0 : Option MetaInfo) (m0 : MetaInfo)
    (content : List OpenListFile) : LoopResult :=
  enrichLoop env (obsFor cache0) (content.filter fun f => f.is_dir)
    m0.folders 0 0

/-- Outcome reported by the refresh route: the success body
`{ total, new, existing, errors, last_refresh }` of line 265-272, or a
500 failure response. -/
inductive RefreshOutcome where
  | failure (msg : String) : RefreshOutcome
  | success (total newCount existingCount errorCount last_refresh : Nat) :
      RefreshOutcome
deriving DecidableEq, Repr

/-- Whether an outcome is a failure response. -/
def RefreshOutcome.isFailure : RefreshOutcome → Bool
  | .failure _ => true
  | .success _ _ _ _ _ => false

/-- Everything observable about one refresh run: the HTTP outcome, the
listing request issued (if any), the final value of the local `metaInfo`
document, the document successfully uploaded (if any), the cache entry for
the root path after the run, the cache contents observable at the run's
suspension points, the search calls in order, and the final counter
values. -/
structure RefreshResult where
  outcome : RefreshOutcome
  listRequest : Option ListDirRequest
  doc : Option MetaInfo
  uploaded : Option MetaInfo
  cacheAfter : Option MetaInfo
  cacheTrace : List (Option MetaInfo)
  searchCalls : List String
  newCount : Nat
  errorCount : Nat
deriving Repr

/-- Embedding of one run of `POST /api/openlist/refresh` (lines 61-279)
for a given root path, starting from cache content `cache0`:

1. resolve `metaInfo` (`initMeta`); a truthy-primitive parse aborts with the
   outer 500 handler before the listing request is ever made;
2. list the root directory with the client defaults (page 1, 100 per page);
   a thrown call or a non-200 code aborts the run with a 500 response,
   leaving the cache as it was;
3. run the enrichment loop; on a warm run the loop mutates the cached
   document in place, so the observable cache content is the partially
   enriched document with the old `last_refresh`, while on a cold run the
   cache entry stays absent;
4. set `last_refresh`, serialize and upload; a failed upload aborts with a
   500 response without touching the cache explicitly — but on a warm run
   the cached object already carries all in-place mutations;
5. verify (best-effort, outcome ignored), then invalidate and repopulate the
   cache with the new document, then persist the summary into the admin
   config; a failed save aborts with a 500 response after the cache commit. -/
def refresh (env : RefreshEnv) (cache0 : Option MetaInfo) (rootPath : String) :
    RefreshResult :=
  match initMeta cache0 env.load env.nowStart with
  | none =>
    { outcome := .failure "TypeError: cannot create property folders"
      listRequest := none, doc := none, uploaded := none
      cacheAfter := cache0, cacheTrace := [], searchCalls := []
      newCount := 0, errorCount := 0 }
  | some m0 =>
    let req := listDirectoryRequest rootPath
      listDirectoryDefaultPage listDirectoryDefaultPerPage
    match env.listing with
    | .threw =>
      { outcome := .failure "OpenList API error"
        listRequest := some req, doc := some m0, uploaded := none
        cacheAfter := cache0, cacheTrace := [cache0], searchCalls := []
        newCount := 0, errorCount := 0 }
    | .resp code content =>
      if code = 200 then
        let dirs := content.filter fun f => f.is_dir
        let res := runLoop env cache0 m0 content
        let finalDoc : MetaInfo := ⟨res.folders, env.nowFinish⟩
        let duringUpload : Option MetaInfo := committedView cache0 finalDoc
        if env.uploadOk then
          { outcome :=
              if env.saveConfigOk then
                .success dirs.length res.newCount
                  (res.folders.length - res.newCount) res.errorCount
                  env.nowFinish
              else .failure "save admin config failed"
            listRequest := some req, doc := some finalDoc
            uploaded := some finalDoc, cacheAfter := some finalDoc
            cacheTrace := cache0 :: (res.trace ++ [duringUpload, some finalDoc])
            searchCalls := res.searchCalls
            newCount := res.newCount, errorCount := res.errorCount }
        else
          { outcome := .failure "OpenList upload failed"
            listRequest := some req, doc := some finalDoc, uploaded := none
            cacheAfter := duringUpload
            cacheTrace := cache0 :: (res.trace ++ [duringUpload])
            searchCalls := res.searchCalls
            newCount := res.newCount, errorCount := res.errorCount }
      else
        { outcome := .failure "OpenList list retrieval failed"
          listRequest := some req, doc := some m0, uploaded := none
          cacheAfter := cache0, cacheTrace := [cache0], searchCalls := []
          newCount := 0, errorCount := 0 }

/-- A search return counts as a hit for the loop exactly when its code is
200 and its result is non-null. -/
def hitB (env : RefreshEnv) (s : String) : Bool :=
  ((env.search s).code == 200) && ((env.search s).result).isSome


/-! ### Concrete material for witnesses and counterexamples -/

/-- A directory entry named `A`. -/
def fileA : OpenListFile := ⟨"A", 1, true, "t1"⟩

/-- A directory entry named `B`. -/
def fileB : OpenListFile := ⟨"B", 2, true, "t2"⟩

/-- A directory entry named `C`. -/
def fileC : OpenListFile := ⟨"C", 3, true, "t3"⟩

/-- A movie search result. -/
def itemA : TMDBItem :=
  ⟨101, some "Movie A", none, some "/a.jpg", some "2020-01-01", none,
    "da", 7, "movie"⟩

/-- A tv search result. -/
def itemB : TMDBItem :=
  ⟨102, none, some "Show B", some "/b.jpg", none, some "2021-02-02",
    "db", 8, "tv"⟩

/-- Another movie search result. -/
def itemC : TMDBItem :=
  ⟨103, some "Movie C", none, none, some "2022-03-03", none, "dc", 6, "movie"⟩

/-- A search result of a media type the client does not recognize. -/
def personItem : TMDBItem :=
  ⟨104, some "P", none, none, none, none, "", 0, "person"⟩

/-- A folder record enriched by some earlier run. -/
def recOld : FolderRecord := ⟨9, "Old", none, "2019-01-01", "d", 5, "movie", 10⟩

/-- An environment for a run that lists two unseen directories `A` and `B`,
both of which the search provider matches, with every external call
succeeding. -/
def envTwoNew : RefreshEnv :=
  { load := .missingFile
    nowStart := 50
    listing := .resp 200 [fileA, fileB]
    search := fun s => if s = "A" then ⟨200, some itemA⟩ else ⟨200, some itemB⟩
    recordTime := fun _ => 60
    nowFinish := 70
    uploadOk := true
    verifyOk := true
    saveConfigOk := true }

/-- The same run, except that uploading `metainfo.json` fails. -/
def envUploadFail : RefreshEnv := { envTwoNew with uploadOk := false }

/-- The same run, except that the final admin-config save fails. -/
def envSaveFail : RefreshEnv := { envTwoNew with saveConfigOk := false }

/-- A run over three unseen directories of which exactly the first has no
search match. -/
def envC6 : RefreshEnv :=
  { envTwoNew with
    listing := .resp 200 [fileA, fileB, fileC]
    search := fun s =>
      if s = "A" then ⟨404, none⟩
      else if s = "B" then ⟨200, some itemB⟩ else ⟨200, some itemC⟩ }

/-- A run whose listing contains only the already-enriched directory `A`. -/
def envSeen : RefreshEnv := { envTwoNew with listing := .resp 200 [fileA] }

/-- A minimal folder record. -/
def rec0 : FolderRecord := ⟨0, "t", none, "", "", 0, "movie", 0⟩

/-- A cached document with 25 folders. -/
def doc25 : MetaInfo :=
  ⟨(List.range 25).map (fun i => ("f" ++ toString i, rec0)), 0⟩

/-! ### Helper lemmas -/

lemma lookupF_append (k : String) (a b : Folders) :
    lookupF k (a ++ b) =
      match lookupF k a with
      | some v => some v
      | none => lookupF k b := by
  induction a with
  | nil => simp [lookupF]
  | cons p rest ih =>
    obtain ⟨n, r⟩ := p
    by_cases h : n = k <;> simp [lookupF, h, ih]

lemma lookupF_append_left {k : String} {a : Folders} {v : FolderRecord}
    (h : lookupF k a = some v) (b : Folders) :
    lookupF k (a ++ b) = some v := by
  rw [lookupF_append, h]

lemma lookupF_append_of_none {k : String} {a : Folders} (h : lookupF k a = none)
    (b : Folders) : lookupF k (a ++ b) = lookupF k b := by
  rw [lookupF_append, h]

lemma lookupF_none_of_append {k : String} {a b : Folders}
    (h : lookupF k (a ++ b) = none) : lookupF k a = none := by
  rw [lookupF_append] at h
  cases hx : lookupF k a with
  | none => rfl
  | some v => rw [hx] at h; exact absurd h (by simp)

lemma lookupF_singleton (k : String) (v : FolderRecord) :
    lookupF k [(k, v)] = some v := by
  simp [lookupF]

lemma searchStep_shape (env : RefreshEnv) (d : OpenListFile) (fs : Folders) :
    (searchStep env d fs).1 = fs ∨
      ∃ r, env.search d.name = ⟨200, some r⟩ ∧
        (searchStep env d fs).1 =
          fs ++ [(d.name, mkFolderRecord r d.name (env.recordTime d.name))] := by
  cases hres : (env.search d.name).result with
  | none => left; simp [searchStep, hres]
  | some r =>
    by_cases hc : (env.search d.name).code = 200
    · right
      refine ⟨r, ?_, by simp [searchStep, hres, hc]⟩
      cases hE : env.search d.name with
      | mk c res =>
        rw [hE] at hres hc
        simp only [SearchReturn.mk.injEq]
        exact ⟨hc, hres⟩
    · left; simp [searchStep, hres, hc]

lemma searchStep_hit (env : RefreshEnv) (d : OpenListFile) (fs : Folders) :
    (searchStep env d fs).2 = hitB env d.name := by
  unfold searchStep hitB
  cases hres : (env.search d.name).result with
  | none => simp [hres]
  | some r =>
    by_cases hc : (env.search d.name).code = 200 <;> simp [hres, hc]

lemma enrichLoop_folders_ext (env : RefreshEnv)
    (obs : Folders → Option MetaInfo) :
    ∀ (ds : List OpenListFile) (fs : Folders) (n e : Nat),
      ∃ ext, (enrichLoop env obs ds fs n e).folders = fs ++ ext := by
  intro ds
  induction ds with
  | nil => intro fs n e; exact ⟨[], by simp [enrichLoop]⟩
  | cons d rest ih =>
    intro fs n e
    cases h : lookupF d.name fs with
    | some v => simpa [enrichLoop, h] using ih fs n e
    | none =>
      obtain ⟨ext, hext⟩ := ih (searchStep env d fs).1
        (if (searchStep env d fs).2 then n + 1 else n)
        (if (searchStep env d fs).2 then e else e + 1)
      rcases searchStep_shape env d fs with hs | ⟨r, _, hs⟩
      · refine ⟨ext, ?_⟩
        simp only [enrichLoop, h]
        rw [hext, hs]
      · refine ⟨(d.name, mkFolderRecord r d.name (env.recordTime d.name)) :: ext, ?_⟩
        simp only [enrichLoop, h]
        rw [hext, hs, List.append_assoc]
        rfl

lemma enrichLoop_lookup_mono (env : RefreshEnv)
    (obs : Folders → Option MetaInfo) {k : String} {v : FolderRecord}
    (ds : List OpenListFile) (fs : Folders) (n e : Nat)
    (h : lookupF k fs = some v) :
    lookupF k (enrichLoop env obs ds fs n e).folders = some v := by
  obtain ⟨ext, hext⟩ := enrichLoop_folders_ext env obs ds fs n e
  rw [hext]
  exact lookupF_append_left h ext

lemma enrichLoop_calls_absent (env : RefreshEnv)
    (obs : Folders → Option MetaInfo) :
    ∀ (ds : List OpenListFile) (fs : Folders) (n e : Nat) (s : String),
      s ∈ (enrichLoop env obs ds fs n e).searchCalls → lookupF s fs = none := by
  intro ds
  induction ds with
  | nil => intro fs n e s hs; simp [enrichLoop] at hs
  | cons d rest ih =>
    intro fs n e s hs
    cases h : lookupF d.name fs with
    | some v =>
      rw [enrichLoop, h] at hs
      exact ih fs n e s hs
    | none =>
      rw [enrichLoop, h] at hs
      simp only [List.mem_cons] at hs
      rcases hs with rfl | hs
      · exact h
      · have habs := ih _ _ _ _ hs
        rcases searchStep_shape env d fs with hfs | ⟨r, _, hfs⟩
        · rwa [hfs] at habs
        · rw [hfs] at habs
          exact lookupF_none_of_append habs

lemma enrichLoop_all_seen (env : RefreshEnv)
    (obs : Folders → Option MetaInfo) :
    ∀ (ds : List OpenListFile) (fs : Folders) (n e : Nat),
      (∀ d ∈ ds, (lookupF d.name fs).isSome) →
      enrichLoop env obs ds fs n e = ⟨fs, n, e, [], []⟩ := by
  intro ds
  induction ds with
  | nil => intro fs n e _; rfl
  | cons d rest ih =>
    intro fs n e hall
    have hd := hall d (List.mem_cons_self d rest)
    cases h : lookupF d.name fs with
    | none => rw [h] at hd; simp at hd
    | some v =>
      rw [enrichLoop, h]
      exact ih fs n e fun d' hd' => hall d' (List.mem_cons_of_mem d hd')

lemma enrichLoop_trace_const (env : RefreshEnv)
    (obs : Folders → Option MetaInfo) (c : Option MetaInfo)
    (hobs : ∀ fs, obs fs = c) :
    ∀ (ds : List OpenListFile) (fs : Folders) (n e : Nat) (s : Option MetaInfo),
      s ∈ (enrichLoop env obs ds fs n e).trace → s = c := by
  intro ds
  induction ds with
  | nil => intro fs n e s hs; simp [enrichLoop] at hs
  | cons d rest ih =>
    intro fs n e s hs
    cases h : lookupF d.name fs with
    | some v =>
      rw [enrichLoop, h] at hs
      exact ih fs n e s hs
    | none =>
      rw [enrichLoop, h] at hs
      simp only [List.mem_cons] at hs
      rcases hs with rfl | hs
      · exact hobs _
      · exact ih _ _ _ _ hs

lemma enrichLoop_adds (env : RefreshEnv) (obs : Folders → Option MetaInfo)
    {d : OpenListFile} {r : TMDBItem}
    (hsr : env.search d.name = ⟨200, some r⟩) :
    ∀ (ds : List OpenListFile) (fs : Folders) (n e : Nat), d ∈ ds →
      lookupF d.name fs = none →
      lookupF d.name (enrichLoop env obs ds fs n e).folders =
        some (mkFolderRecord r d.name (env.recordTime d.name)) := by
  intro ds
  induction ds with
  | nil => intro fs n e hd; simp at hd
  | cons d' rest ih =>
    intro fs n e hd habs
    cases h : lookupF d'.name fs with
    | some v =>
      rw [enrichLoop, h]
      rcases List.mem_cons.mp hd with rfl | hd'
      · rw [habs] at h; exact absurd h (by simp)
      · exact ih fs n e hd' habs
    | none =>
      rw [enrichLoop, h]
      by_cases hn : d'.name = d.name
      · have hstep : (searchStep env d' fs).1 =
            fs ++ [(d.name, mkFolderRecord r d.name (env.recordTime d.name))] := by
          simp [searchStep, hn, hsr]
        have hlook : lookupF d.name (searchStep env d' fs).1 =
            some (mkFolderRecord r d.name (env.recordTime d.name)) := by
          rw [hstep, lookupF_append_of_none habs, lookupF_singleton]
        exact enrichLoop_lookup_mono env obs rest _ _ _ hlook
      · have hd' : d ∈ rest := by
          rcases List.mem_cons.mp hd with rfl | hd'
          · exact absurd rfl hn
          · exact hd'
        have habs' : lookupF d.name (searchStep env d' fs).1 = none := by
          rcases searchStep_shape env d' fs with hfs | ⟨r', _, hfs⟩
          · rwa [hfs]
          · rw [hfs, lookupF_append_of_none habs]
            simp [lookupF, hn]
        exact ih _ _ _ hd' habs'

lemma enrichLoop_counts (env : RefreshEnv)
    (obs : Folders → Option MetaInfo) :
    ∀ (ds : List OpenListFile) (fs : Folders) (n e : Nat),
      (enrichLoop env obs ds fs n e).newCount =
        n + (enrichLoop env obs ds fs n e).searchCalls.countP (hitB env) ∧
      (enrichLoop env obs ds fs n e).errorCount =
        e + (enrichLoop env obs ds fs n e).searchCalls.countP
              (fun s => !(hitB env s)) := by
  intro ds
  induction ds with
  | nil => intro fs n e; simp [enrichLoop]
  | cons d rest ih =>
    intro fs n e
    cases h : lookupF d.name fs with
    | some v => simpa [enrichLoop, h] using ih fs n e
    | none =>
      have hhit := searchStep_hit env d fs
      obtain ⟨ihn, ihe⟩ := ih (searchStep env d fs).1
        (if (searchStep env d fs).2 then n + 1 else n)
        (if (searchStep env d fs).2 then e else e + 1)
      by_cases hb : hitB env d.name = true
      · constructor
        · simp only [enrichLoop, h, List.countP_cons]
          simp [hhit, hb] at ihn ⊢
          omega
        · simp only [enrichLoop, h, List.countP_cons]
          simp [hhit, hb] at ihe ⊢
          omega
      · have hb' : hitB env d.name = false := by
          cases hx : hitB env d.name
          · rfl
          · exact absurd hx hb
        constructor
        · simp only [enrichLoop, h, List.countP_cons]
          simp [hhit, hb'] at ihn ⊢
          omega
        · simp only [enrichLoop, h, List.countP_cons]
          simp [hhit, hb'] at ihe ⊢
          omega

lemma length_insertSorted (le : VideoItem → VideoItem → Bool) (x : VideoItem) :
    ∀ l : List VideoItem, (insertSorted le x l).length = l.length + 1 := by
  intro l
  induction l with
  | nil => rfl
  | cons y ys ih =>
    by_cases h : le y x = true <;> simp [insertSorted, h, ih]

lemma length_foldl_insert (le : VideoItem → VideoItem → Bool) :
    ∀ (l acc : List VideoItem),
      (List.foldl (fun acc x => insertSorted le x acc) acc l).length =
        acc.length + l.length := by
  intro l
  induction l with
  | nil => intro acc; simp
  | cons x xs ih =>
    intro acc
    simp only [List.foldl_cons]
    rw [ih, length_insertSorted]
    simp only [List.length_cons]
    omega

lemma length_jsSortBy (le : VideoItem → VideoItem → Bool) (l : List VideoItem) :
    (jsSortBy le l).length = l.length := by
  unfold jsSortBy
  rw [length_foldl_insert]
  simp

lemma jsSlice_length (l : List VideoItem) (s e : Int) (h0 : 0 ≤ s) (hse : s ≤ e)
    (hel : e ≤ (l.length : Int)) : (jsSlice l s e).length = (e - s).toNat := by
  have hsl : s ≤ (l.length : Int) := le_trans hse hel
  simp only [jsSlice]
  rw [if_neg (not_lt.mpr h0), if_neg (not_lt.mpr (le_trans h0 hse))]
  rw [min_eq_left hsl, min_eq_left hel]
  rw [List.length_take, List.length_drop]
  omega

lemma jsSlice_nil (l : List VideoItem) (s e : Int) (hs0 : 0 ≤ s)
    (hsl : (l.length : Int) ≤ s) : jsSlice l s e = [] := by
  simp only [jsSlice]
  rw [if_neg (not_lt.mpr hs0), min_eq_right hsl]
  rw [List.drop_eq_nil_of_le (by simp), List.take_nil]

lemma listVideos_list (m : MetaInfo) (p ps : Int) :
    (listVideos m p ps).list =
      jsSlice (jsSortBy byLastUpdatedDesc (m.folders.map toVideoItem))
        ((p - 1) * ps) ((p - 1) * ps + ps) := rfl

lemma listVideos_total (m : MetaInfo) (p ps : Int) :
    (listVideos m p ps).total = m.folders.length := by
  simp [listVideos]

lemma listVideos_totalPages (m : MetaInfo) (p ps : Int) :
    (listVideos m p ps).totalPages = ceilPages m.folders.length ps := by
  simp [listVideos]

lemma sorted_length (m : MetaInfo) :
    (jsSortBy byLastUpdatedDesc (m.folders.map toVideoItem)).length =
      m.folders.length := by
  rw [length_jsSortBy, List.length_map]

lemma enrichLoop_calls_mem (env : RefreshEnv)
    (obs : Folders → Option MetaInfo) :
    ∀ (ds : List OpenListFile) (fs : Folders) (n e : Nat) (s : String),
      s ∈ (enrichLoop env obs ds fs n e).searchCalls → ∃ d ∈ ds, d.name = s := by
  intro ds
  induction ds with
  | nil => intro fs n e s hs; simp [enrichLoop] at hs
  | cons d rest ih =>
    intro fs n e s hs
    cases h : lookupF d.name fs with
    | some v =>
      rw [enrichLoop, h] at hs
      obtain ⟨d', hd', hn⟩ := ih fs n e s hs
      exact ⟨d', List.mem_cons_of_mem d hd', hn⟩
    | none =>
      rw [enrichLoop, h] at hs
      simp only [List.mem_cons] at hs
      rcases hs with rfl | hs
      · exact ⟨d, List.mem_cons_self d rest, rfl⟩
      · obtain ⟨d', hd', hn⟩ := ih _ _ _ _ hs
        exact ⟨d', List.mem_cons_of_mem d hd', hn⟩

lemma refresh_initNone (env : RefreshEnv) (cache0 : Option MetaInfo)
    (rootPath : String)
    (hinit : initMeta cache0 env.load env.nowStart = none) :
    refresh env cache0 rootPath =
      ⟨.failure "TypeError: cannot create property folders",
        none, none, none, cache0, [], [], 0, 0⟩ := by
  simp [refresh, hinit]

lemma refresh_threw (env : RefreshEnv) (cache0 : Option MetaInfo)
    (rootPath : String) (m0 : MetaInfo)
    (hinit : initMeta cache0 env.load env.nowStart = some m0)
    (hlist : env.listing = ListOutcome.threw) :
    refresh env cache0 rootPath =
      ⟨.failure "OpenList API error",
        some (listDirectoryRequest rootPath listDirectoryDefaultPage
          listDirectoryDefaultPerPage),
        some m0, none, cache0, [cache0], [], 0, 0⟩ := by
  simp [refresh, hinit, hlist]

lemma refresh_non200 (env : RefreshEnv) (cache0 : Option MetaInfo)
    (rootPath : String) (m0 : MetaInfo) (code : Nat)
    (content : List OpenListFile)
    (hinit : initMeta cache0 env.load env.nowStart = some m0)
    (hlist : env.listing = ListOutcome.resp code content) (hc : code ≠ 200) :
    refresh env cache0 rootPath =
      ⟨.failure "OpenList list retrieval failed",
        some (listDirectoryRequest rootPath listDirectoryDefaultPage
          listDirectoryDefaultPerPage),
        some m0, none, cache0, [cache0], [], 0, 0⟩ := by
  simp [refresh, hinit, hlist, hc]

lemma refresh_200 (env : RefreshEnv) (cache0 : Option MetaInfo)
    (rootPath : String) (m0 : MetaInfo) (content : List OpenListFile)
    (hinit : initMeta cache0 env.load env.nowStart = some m0)
    (hlist : env.listing = ListOutcome.resp 200 content) :
    (refresh env cache0 rootPath).searchCalls =
      (runLoop env cache0 m0 content).searchCalls ∧
    (refresh env cache0 rootPath).doc =
      some ⟨(runLoop env cache0 m0 content).folders, env.nowFinish⟩ ∧
    (refresh env cache0 rootPath).newCount =
      (runLoop env cache0 m0 content).newCount ∧
    (refresh env cache0 rootPath).errorCount =
      (runLoop env cache0 m0 content).errorCount ∧
    (refresh env cache0 rootPath).listRequest =
      some (listDirectoryRequest rootPath listDirectoryDefaultPage
        listDirectoryDefaultPerPage) := by
  by_cases hu : env.uploadOk <;> simp [refresh, hinit, hlist, hu]

lemma refresh_outcome_200 (env : RefreshEnv) (cache0 : Option MetaInfo)
    (rootPath : String) (m0 : MetaInfo) (content : List OpenListFile)
    (hinit : initMeta cache0 env.load env.nowStart = some m0)
    (hlist : env.listing = ListOutcome.resp 200 content) :
    (refresh env cache0 rootPath).outcome =
      if env.uploadOk then
        (if env.saveConfigOk then
          .success (content.filter fun f => f.is_dir).length
            (runLoop env cache0 m0 content).newCount
            ((runLoop env cache0 m0 content).folders.length -
              (runLoop env cache0 m0 content).newCount)
            (runLoop env cache0 m0 content).errorCount env.nowFinish
        else .failure "save admin config failed")
      else .failure "OpenList upload failed" := by
  by_cases hu : env.uploadOk <;> simp [refresh, hinit, hlist, hu]

lemma refresh_cacheAfter_200 (env : RefreshEnv) (cache0 : Option MetaInfo)
    (rootPath : String) (m0 : MetaInfo) (content : List OpenListFile)
    (hinit : initMeta cache0 env.load env.nowStart = some m0)
    (hlist : env.listing = ListOutcome.resp 200 content) :
    (refresh env cache0 rootPath).cacheAfter =
      if env.uploadOk then
        some ⟨(runLoop env cache0 m0 content).folders, env.nowFinish⟩
      else
        committedView cache0
          ⟨(runLoop env cache0 m0 content).folders, env.nowFinish⟩ := by
  by_cases hu : env.uploadOk <;> simp [refresh, hinit, hlist, hu]

lemma refresh_trace_200 (env : RefreshEnv) (cache0 : Option MetaInfo)
    (rootPath : String) (m0 : MetaInfo) (content : List OpenListFile)
    (hinit : initMeta cache0 env.load env.nowStart = some m0)
    (hlist : env.listing = ListOutcome.resp 200 content) :
    (refresh env cache0 rootPath).cacheTrace =
      cache0 :: ((runLoop env cache0 m0 content).trace ++
        [committedView cache0
          ⟨(runLoop env cache0 m0 content).folders, env.nowFinish⟩] ++
        (if env.uploadOk then
          [some ⟨(runLoop env cache0 m0 content).folders, env.nowFinish⟩]
        else [])) := by
  by_cases hu : env.uploadOk <;> simp [refresh, hinit, hlist, hu]

lemma refresh_uploaded_200 (env : RefreshEnv) (cache0 : Option MetaInfo)
    (rootPath : String) (m0 : MetaInfo) (content : List OpenListFile)
    (hinit : initMeta cache0 env.load env.nowStart = some m0)
    (hlist : env.listing = ListOutcome.resp 200 content) :
    (refresh env cache0 rootPath).uploaded =
      if env.uploadOk then
        some ⟨(runLoop env cache0 m0 content).folders, env.nowFinish⟩
      else none := by
  by_cases hu : env.uploadOk <;> simp [refresh, hinit, hlist, hu]

lemma strOrElse_of_ne {a : Option String} {t : String} (ha : a = some t)
    (ht : t ≠ "") (b : String) : strOrElse a b = t := by
  simp [strOrElse, ha, ht]

lemma strOrElse_of_blank {a : Option String} (ha : a.getD "" = "")
    (b : String) : strOrElse a b = b := by
  cases a with
  | none => rfl
  | some s =>
    simp only [Option.getD_some] at ha
    simp [strOrElse, ha]

/-! ### The claims -/

/-- C7: for every provider response, `searchTMDB` filters the result list to
entries whose media type is `movie` or `tv`; if no entries remain it returns
the no-match outcome `{code: 404, result: null}` (not a thrown error), and
otherwise it returns exactly the first remaining entry (`result` is the head
of the filtered list), applying no ranking or scoring. -/
theorem C7_search_filter_first (apiKey : String) (hk : apiKey ≠ "")
    (results : List TMDBItem) :
    ((results.filter fun item =>
        item.media_type == "movie" || item.media_type == "tv") = [] →
      searchTMDB apiKey (.ok results) = ⟨404, none⟩) ∧
    (∀ r rest, (results.filter fun item =>
        item.media_type == "movie" || item.media_type == "tv") = r :: rest →
      searchTMDB apiKey (.ok results) = ⟨200, some r⟩) ∧
    (searchTMDB apiKey (.ok results)).result =
      (results.filter fun item =>
        item.media_type == "movie" || item.media_type == "tv").head? := by
  refine ⟨?_, ?_, ?_⟩
  · intro hnil
    simp [searchTMDB, hk, hnil]
  · intro r rest hcons
    simp [searchTMDB, hk, hcons]
  · cases hv : results.filter fun item =>
        item.media_type == "movie" || item.media_type == "tv" with
    | nil => simp [searchTMDB, hk, hv]
    | cons r rest => simp [searchTMDB, hk, hv]

/-- C7 witness: a concrete response whose first entry is of an unrecognized
media type is filtered away and the first recognized entry is returned. -/
theorem C7_witness :
    searchTMDB "key" (.ok [personItem, itemB]) = ⟨200, some itemB⟩ :=
  (C7_search_filter_first "key" (by decide) [personItem, itemB]).2.1
    itemB [] (by decide)

/-- C8: for every refresh run, every key present in the resolved document's
`folders` mapping at the start of the run is still present with its record
unchanged in the run's final document: the pipeline only appends new keys
and never removes or overwrites existing entries, including entries for
folders no longer present in the remote listing (the final `folders` is the
initial one extended by a suffix). -/
theorem C8_never_removes_entries (env : RefreshEnv) (cache0 : Option MetaInfo)
    (rootPath : String) (m0 : MetaInfo)
    (hinit : initMeta cache0 env.load env.nowStart = some m0) :
    (∀ k v, lookupF k m0.folders = some v →
      ((refresh env cache0 rootPath).doc.bind fun dd => lookupF k dd.folders) =
        some v) ∧
    (∀ dd, (refresh env cache0 rootPath).doc = some dd →
      ∃ ext, dd.folders = m0.folders ++ ext) := by
  cases hlist : env.listing with
  | threw =>
    rw [refresh_threw env cache0 rootPath m0 hinit hlist]
    constructor
    · intro k v hv; simpa using hv
    · intro dd hdd
      simp only [Option.some.injEq] at hdd
      exact ⟨[], by rw [← hdd]; simp⟩
  | resp code content =>
    by_cases hc : code = 200
    · subst hc
      obtain ⟨_, hdoc, _⟩ := refresh_200 env cache0 rootPath m0 content hinit hlist
      constructor
      · intro k v hv
        rw [hdoc, Option.some_bind]
        exact enrichLoop_lookup_mono env (obsFor cache0) _ _ _ _ hv
      · intro dd hdd
        rw [hdoc] at hdd
        obtain ⟨ext, hext⟩ := enrichLoop_folders_ext env (obsFor cache0)
          (content.filter fun f => f.is_dir) m0.folders 0 0
        simp only [Option.some.injEq] at hdd
        exact ⟨ext, by rw [← hdd]; simpa [runLoop] using hext⟩
    · rw [refresh_non200 env cache0 rootPath m0 code content hinit hlist hc]
      constructor
      · intro k v hv; simpa using hv
      · intro dd hdd
        simp only [Option.some.injEq] at hdd
        exact ⟨[], by rw [← hdd]; simp⟩

/-- C8 witness: a warm run over a listing that no longer contains the
previously enriched folder `A` still carries `A`'s record unchanged. -/
theorem C8_witness :
    ((refresh envTwoNew (some ⟨[("Old", recOld)], 10⟩) "/").doc.bind
      fun dd => lookupF "Old" dd.folders) = some recOld :=
  (C8_never_removes_entries envTwoNew (some ⟨[("Old", recOld)], 10⟩) "/"
    ⟨[("Old", recOld)], 10⟩ rfl).1 "Old" recOld (by decide)

/-- C3: for a run whose listing succeeds, a folder whose name is already a
key of the resolved document's `folders` is never passed to the search
provider; and when every listed directory name is already a key, the run
performs zero search calls and produces a document with the `folders`
mapping unchanged key-for-key and record-for-record, only `last_refresh`
advanced to the run's timestamp. -/
theorem C3_second_run_idempotent (env : RefreshEnv) (cache0 : Option MetaInfo)
    (rootPath : String) (m0 : MetaInfo) (content : List OpenListFile)
    (hinit : initMeta cache0 env.load env.nowStart = some m0)
    (hlist : env.listing = ListOutcome.resp 200 content) :
    (∀ s ∈ (refresh env cache0 rootPath).searchCalls,
      lookupF s m0.folders = none) ∧
    ((∀ d ∈ content.filter (fun f => f.is_dir),
        (lookupF d.name m0.folders).isSome) →
      (refresh env cache0 rootPath).searchCalls = [] ∧
      (refresh env cache0 rootPath).newCount = 0 ∧
      (refresh env cache0 rootPath).doc = some ⟨m0.folders, env.nowFinish⟩) := by
  obtain ⟨hcalls, hdoc, hnew, _⟩ :=
    refresh_200 env cache0 rootPath m0 content hinit hlist
  constructor
  · intro s hs
    rw [hcalls] at hs
    exact enrichLoop_calls_absent env (obsFor cache0) _ _ _ _ s
      (by simpa [runLoop] using hs)
  · intro hall
    have hid := enrichLoop_all_seen env (obsFor cache0)
      (content.filter fun f => f.is_dir) m0.folders 0 0 hall
    refine ⟨?_, ?_, ?_⟩
    · rw [hcalls]; simp [runLoop, hid]
    · rw [hnew]; simp [runLoop, hid]
    · rw [hdoc]; simp [runLoop, hid]

/-- C3 witness: a second run over a listing whose only directory `A` is
already enriched performs no search call and only bumps `last_refresh`. -/
theorem C3_witness :
    (refresh envSeen (some ⟨[("A", recOld)], 10⟩) "/").searchCalls = [] ∧
    (refresh envSeen (some ⟨[("A", recOld)], 10⟩) "/").newCount = 0 ∧
    (refresh envSeen (some ⟨[("A", recOld)], 10⟩) "/").doc =
      some ⟨[("A", recOld)], 70⟩ :=
  (C3_second_run_idempotent envSeen (some ⟨[("A", recOld)], 10⟩) "/"
    ⟨[("A", recOld)], 10⟩ [fileA] rfl rfl).2 (by decide)

/-- C9: when the search succeeds (code 200 with a non-null result) for an
unseen listed directory, the run's final document maps that folder name to a
record whose `title` is the provider's movie title when supplied non-empty,
else the series name when supplied non-empty, else the folder name itself;
whose `release_date` is the movie date when supplied non-empty, else the
series first-air date when supplied non-empty, else the empty string; whose
`last_updated` is the time taken when the record was built; and the run's
new-counter equals the number of search calls that came back as hits, so
each such folder increments it by exactly one. -/
theorem C9_success_record_fields (env : RefreshEnv) (cache0 : Option MetaInfo)
    (rootPath : String) (m0 : MetaInfo) (content : List OpenListFile)
    (hinit : initMeta cache0 env.load env.nowStart = some m0)
    (hlist : env.listing = ListOutcome.resp 200 content)
    (d : OpenListFile) (hd : d ∈ content.filter fun f => f.is_dir)
    (hunseen : lookupF d.name m0.folders = none)
    (r : TMDBItem) (hsr : env.search d.name = ⟨200, some r⟩) :
    (∃ dd, (refresh env cache0 rootPath).doc = some dd ∧
      lookupF d.name dd.folders =
        some (mkFolderRecord r d.name (env.recordTime d.name))) ∧
    (mkFolderRecord r d.name (env.recordTime d.name)).last_updated =
      env.recordTime d.name ∧
    (mkFolderRecord r d.name (env.recordTime d.name)).tmdb_id = r.id ∧
    (∀ t0, r.title = some t0 → t0 ≠ "" →
      (mkFolderRecord r d.name (env.recordTime d.name)).title = t0) ∧
    (r.title.getD "" = "" → ∀ nm, r.name = some nm → nm ≠ "" →
      (mkFolderRecord r d.name (env.recordTime d.name)).title = nm) ∧
    (r.title.getD "" = "" → r.name.getD "" = "" →
      (mkFolderRecord r d.name (env.recordTime d.name)).title = d.name) ∧
    (∀ rd, r.release_date = some rd → rd ≠ "" →
      (mkFolderRecord r d.name (env.recordTime d.name)).release_date = rd) ∧
    (r.release_date.getD "" = "" → ∀ fa, r.first_air_date = some fa → fa ≠ "" →
      (mkFolderRecord r d.name (env.recordTime d.name)).release_date = fa) ∧
    (r.release_date.getD "" = "" → r.first_air_date.getD "" = "" →
      (mkFolderRecord r d.name (env.recordTime d.name)).release_date = "") ∧
    (refresh env cache0 rootPath).newCount =
      (refresh env cache0 rootPath).searchCalls.countP (hitB env) := by
  obtain ⟨hcalls, hdoc, hnew, _⟩ :=
    refresh_200 env cache0 rootPath m0 content hinit hlist
  refine ⟨?_, rfl, rfl, ?_, ?_, ?_, ?_, ?_, ?_, ?_⟩
  · refine ⟨_, hdoc, ?_⟩
    have := enrichLoop_adds env (obsFor cache0) hsr
      (content.filter fun f => f.is_dir) m0.folders 0 0 hd hunseen
    simpa [runLoop] using this
  · intro t0 ht0 hne
    simp only [mkFolderRecord]
    rw [strOrElse_of_ne ht0 hne]
  · intro hblank nm hnm hne
    simp only [mkFolderRecord]
    rw [strOrElse_of_blank hblank, strOrElse_of_ne hnm hne]
  · intro hblank hblank2
    simp only [mkFolderRecord]
    rw [strOrElse_of_blank hblank, strOrElse_of_blank hblank2]
  · intro rd hrd hne
    simp only [mkFolderRecord]
    rw [strOrElse_of_ne hrd hne]
  · intro hblank fa hfa hne
    simp only [mkFolderRecord]
    rw [strOrElse_of_blank hblank, strOrElse_of_ne hfa hne]
  · intro hblank hblank2
    simp only [mkFolderRecord]
    rw [strOrElse_of_blank hblank, strOrElse_of_blank hblank2]
  · rw [hnew, hcalls]
    have := enrichLoop_counts env (obsFor cache0)
      (content.filter fun f => f.is_dir) m0.folders 0 0
    simpa [runLoop] using this.1

/-- C9 witness: the cold two-folder run stores for `B` the record built from
the provider's series fields with `last_updated` equal to the record-build
time. -/
theorem C9_witness :
    (∃ dd, (refresh envTwoNew none "/").doc = some dd ∧
      lookupF "B" dd.folders = some (mkFolderRecord itemB "B" 60)) ∧
    mkFolderRecord itemB "B" 60 =
      ⟨102, "Show B", some "/b.jpg", "2021-02-02", "db", 8, "tv", 60⟩ := by
  have h := C9_success_record_fields envTwoNew none "/" ⟨[], 50⟩ [fileA, fileB]
    rfl rfl fileB (by decide) (by decide) itemB (by decide)
  exact ⟨h.1, by decide⟩

/-- C10: the refresh run's one directory-listing request always carries the
client defaults page 1 and 100 entries per page; every folder name passed to
the search provider is the name of a directory entry of that single
response; and the `total` reported on success is the number of directory
entries of that single response — so entries beyond the first listing page
are never enriched, never added, and never counted. -/
theorem C10_single_first_page_listing (env : RefreshEnv)
    (cache0 : Option MetaInfo) (rootPath : String) :
    (∀ req, (refresh env cache0 rootPath).listRequest = some req →
      req = ⟨rootPath, "", false, 1, 100⟩) ∧
    (∀ s ∈ (refresh env cache0 rootPath).searchCalls,
      ∃ d ∈ env.listing.content, d.is_dir = true ∧ d.name = s) ∧
    (∀ t nc ex ec lr,
      (refresh env cache0 rootPath).outcome =
        RefreshOutcome.success t nc ex ec lr →
      t = (env.listing.content.filter fun f => f.is_dir).length) := by
  cases hinit : initMeta cache0 env.load env.nowStart with
  | none =>
    rw [refresh_initNone env cache0 rootPath hinit]
    refine ⟨?_, ?_, ?_⟩
    · intro req h; exact absurd h (by simp)
    · intro s hs; exact absurd hs (by simp)
    · intro t nc ex ec lr h; exact absurd h (by simp)
  | some m0 =>
    cases hlist : env.listing with
    | threw =>
      rw [refresh_threw env cache0 rootPath m0 hinit hlist]
      refine ⟨?_, ?_, ?_⟩
      · intro req h; exact (Option.some.inj h).symm
      · intro s hs; exact absurd hs (by simp)
      · intro t nc ex ec lr h; exact absurd h (by simp)
    | resp code content =>
      by_cases hc : code = 200
      · subst hc
        obtain ⟨hcalls, _, _, _, hreq⟩ :=
          refresh_200 env cache0 rootPath m0 content hinit hlist
        refine ⟨?_, ?_, ?_⟩
        · intro req h
          rw [hreq] at h
          exact (Option.some.inj h).symm
        · intro s hs
          rw [hcalls] at hs
          obtain ⟨d, hdmem, hdname⟩ := enrichLoop_calls_mem env (obsFor cache0)
            _ _ _ _ s (by simpa [runLoop] using hs)
          rw [List.mem_filter] at hdmem
          exact ⟨d, by simp [hlist, ListOutcome.content, hdmem.1],
            hdmem.2, hdname⟩
        · intro t nc ex ec lr h
          rw [refresh_outcome_200 env cache0 rootPath m0 content hinit hlist]
            at h
          by_cases hu : env.uploadOk
          · by_cases hsv : env.saveConfigOk
            · rw [if_pos hu, if_pos hsv] at h
              have := (RefreshOutcome.success.inj h).1
              simp only [ListOutcome.content]
              exact this.symm
            · rw [if_pos hu, if_neg hsv] at h
              exact absurd h (by simp)
          · rw [if_neg hu] at h
            exact absurd h (by simp)
      · rw [refresh_non200 env cache0 rootPath m0 code content hinit hlist hc]
        refine ⟨?_, ?_, ?_⟩
        · intro req h; exact (Option.some.inj h).symm
        · intro s hs; exact absurd hs (by simp)
        · intro t nc ex ec lr h; exact absurd h (by simp)

/-- C10 witness: the cold two-folder run issues the default first-page
request and reports the directory count of that single response. -/
theorem C10_witness :
    (⟨"/", "", false, 1, 100⟩ : ListDirRequest) = ⟨"/", "", false, 1, 100⟩ ∧
    (refresh envTwoNew none "/").outcome = .success 2 2 0 0 70 ∧
    (2 : Nat) = (envTwoNew.listing.content.filter fun f => f.is_dir).length := by
  have h := C10_single_first_page_listing envTwoNew none "/"
  refine ⟨h.1 ⟨"/", "", false, 1, 100⟩ (by decide), by decide, ?_⟩
  exact h.2.2 2 2 0 0 70 (by decide)

/-- C1 counterexample: in a warm run (the cache holds the pre-run document,
here with no folders) over two unseen directories `A` and `B`, the cache
content observable at the suspension point after `A` is enriched contains
`A`'s new record but not `B`'s — a document with some but not all of the
run's newly enriched entries, distinct both from the pre-run document and
from the final document.  The claim fails because the run mutates the cached
object in place; it is false that the new document is built fully in memory
before the cache is mutated. -/
theorem C1_counterexample :
    some (⟨[("A", mkFolderRecord itemA "A" 60)], 10⟩ : MetaInfo) ∈
      (refresh envTwoNew (some ⟨[], 10⟩) "/").cacheTrace ∧
    lookupF "B" [("A", mkFolderRecord itemA "A" 60)] = none ∧
    (refresh envTwoNew (some ⟨[], 10⟩) "/").doc =
      some ⟨[("A", mkFolderRecord itemA "A" 60),
             ("B", mkFolderRecord itemB "B" 60)], 70⟩ ∧
    (⟨[("A", mkFolderRecord itemA "A" 60)], 10⟩ : MetaInfo) ≠ ⟨[], 10⟩ ∧
    some (⟨[("A", mkFolderRecord itemA "A" 60)], 10⟩ : MetaInfo) ≠
      (refresh envTwoNew (some ⟨[], 10⟩) "/").doc := by
  decide

/-- C1 (amended): when the run starts with no cache entry for the root path,
atomic visibility holds: at every suspension point a concurrent listing
observes either the pre-run cache state (absent) or the complete final
document, never a partial merge, because the document under construction is
then a fresh object and the cache is only written at the final commit.  When
the run starts from a cached document, that object is mutated in place and
partially enriched states are observable (see the counterexample). -/
theorem C1_amended_cold_runs_atomic (env : RefreshEnv) (rootPath : String)
    (s : Option MetaInfo)
    (hs : s ∈ (refresh env none rootPath).cacheTrace) :
    s = none ∨ s = (refresh env none rootPath).doc := by
  cases hinit : initMeta none env.load env.nowStart with
  | none =>
    rw [refresh_initNone env none rootPath hinit] at hs
    exact absurd hs (by simp)
  | some m0 =>
    cases hlist : env.listing with
    | threw =>
      rw [refresh_threw env none rootPath m0 hinit hlist] at hs
      simp only [List.mem_singleton] at hs
      exact Or.inl hs
    | resp code content =>
      by_cases hc : code = 200
      · subst hc
        obtain ⟨_, hdoc, _⟩ := refresh_200 env none rootPath m0 content hinit hlist
        rw [refresh_trace_200 env none rootPath m0 content hinit hlist] at hs
        rcases List.mem_cons.mp hs with rfl | hs2
        · exact Or.inl rfl
        rcases List.mem_append.mp hs2 with hs3 | hs4
        · rcases List.mem_append.mp hs3 with hs5 | hs6
          · exact Or.inl (enrichLoop_trace_const env (obsFor none) none
              (fun _ => rfl) _ _ _ _ s (by simpa [runLoop] using hs5))
          · exact Or.inl (by rw [List.mem_singleton.mp hs6]; rfl)
        · by_cases hu : env.uploadOk
          · rw [if_pos hu] at hs4
            rw [hdoc]
            exact Or.inr (List.mem_singleton.mp hs4)
          · rw [if_neg hu] at hs4
            exact absurd hs4 (by simp)
      · rw [refresh_non200 env none rootPath m0 code content hinit hlist hc] at hs
        simp only [List.mem_singleton] at hs
        exact Or.inl hs

/-- C1 witness: in the concrete cold run over `A` and `B` the absent state
is among the observable cache states and is covered by the amended claim. -/
theorem C1_witness :
    (none : Option MetaInfo) = none ∨
      (none : Option MetaInfo) = (refresh envTwoNew none "/").doc :=
  C1_amended_cold_runs_atomic envTwoNew "/" none (by decide)

/-- C2 counterexample: a warm run (pre-run cached document with no folders)
that enriches `A` and `B` and then fails its upload reports failure, but the
cache entry is no longer the pre-run document and is not absent either: the
cached object was mutated in place during enrichment and by the
`last_refresh` assignment that precedes the upload. -/
theorem C2_counterexample :
    (refresh envUploadFail (some ⟨[], 10⟩) "/").outcome.isFailure = true ∧
    (refresh envUploadFail (some ⟨[], 10⟩) "/").cacheAfter ≠ some ⟨[], 10⟩ ∧
    (refresh envUploadFail (some ⟨[], 10⟩) "/").cacheAfter ≠ none := by
  decide

/-- C2 (amended): when the upload of the serialized document fails, the run
reports failure to the caller and nothing is persisted; if the cache entry
for the root path was absent at the start of the run it is still absent
(`setCachedMetaInfo` is never reached).  When a cached document was present
at the start of the run, however, that object has been mutated in place, so
the entry does not in general equal the pre-run document (see the
counterexample). -/
theorem C2_amended_upload_failure (env : RefreshEnv) (cache0 : Option MetaInfo)
    (rootPath : String) (m0 : MetaInfo) (content : List OpenListFile)
    (hinit : initMeta cache0 env.load env.nowStart = some m0)
    (hlist : env.listing = ListOutcome.resp 200 content)
    (hu : env.uploadOk = false) :
    (refresh env cache0 rootPath).outcome = .failure "OpenList upload failed" ∧
    (refresh env cache0 rootPath).uploaded = none ∧
    (cache0 = none → (refresh env cache0 rootPath).cacheAfter = none) := by
  refine ⟨?_, ?_, ?_⟩
  · rw [refresh_outcome_200 env cache0 rootPath m0 content hinit hlist, hu]
    simp
  · rw [refresh_uploaded_200 env cache0 rootPath m0 content hinit hlist, hu]
    simp
  · intro h0
    rw [refresh_cacheAfter_200 env cache0 rootPath m0 content hinit hlist, hu]
    simp [h0, committedView]

/-- C2 witness: the concrete cold run with a failing upload reports failure
and leaves the cache entry absent. -/
theorem C2_witness :
    (refresh envUploadFail none "/").outcome =
      .failure "OpenList upload failed" ∧
    (refresh envUploadFail none "/").uploaded = none ∧
    (refresh envUploadFail none "/").cacheAfter = none := by
  have h := C2_amended_upload_failure envUploadFail none "/" ⟨[], 50⟩
    [fileA, fileB] rfl rfl rfl
  exact ⟨h.1, h.2.1, h.2.2 rfl⟩

/-- C4 counterexample: a run whose listing succeeds with code 200 and whose
upload succeeds still returns a failure outcome when the final
admin-configuration save (`db.saveAdminConfig`, awaited inside the route's
try block) fails — so the listing call and the upload are not the only
sources of an error outcome. -/
theorem C4_counterexample :
    envSaveFail.listing = ListOutcome.resp 200 [fileA, fileB] ∧
    envSaveFail.uploadOk = true ∧
    (refresh envSaveFail none "/").outcome.isFailure = true := by
  decide

/-- C4 (amended): a refresh run returns a failure outcome exactly when the
directory listing throws or returns a non-200 code, or the upload fails, or
the final admin-config save fails, or (one further corner) the persisted
document parses to a truthy non-object primitive, on which the folders
repair assignment itself throws.  All remaining load failures — missing
file, non-success content fetch, parse failure, falsy parse — are non-fatal:
the run continues from the fresh empty document with `folders = {}`. -/
theorem C4_amended_failure_sources (env : RefreshEnv)
    (cache0 : Option MetaInfo) (rootPath : String) :
    ((refresh env cache0 rootPath).outcome.isFailure = true ↔
      (initMeta cache0 env.load env.nowStart = none ∨
       env.listing = ListOutcome.threw ∨
       (∃ code content, env.listing = ListOutcome.resp code content ∧
         code ≠ 200) ∨
       ((∃ content, env.listing = ListOutcome.resp 200 content) ∧
         initMeta cache0 env.load env.nowStart ≠ none ∧
         (env.uploadOk = false ∨ env.saveConfigOk = false)))) ∧
    (initMeta cache0 env.load env.nowStart = none ↔
      (cache0 = none ∧ env.load = LoadOutcome.parsedPrimitive)) ∧
    (cache0 = none →
      (env.load = LoadOutcome.missingFile ∨
       env.load = LoadOutcome.fetchFailed ∨
       env.load = LoadOutcome.parseFailed ∨
       env.load = LoadOutcome.parsedFalsy) →
      initMeta cache0 env.load env.nowStart = some ⟨[], env.nowStart⟩) := by
  refine ⟨?_, ?_, ?_⟩
  · cases hinit : initMeta cache0 env.load env.nowStart with
    | none =>
      rw [refresh_initNone env cache0 rootPath hinit]
      simp [RefreshOutcome.isFailure]
    | some m0 =>
      cases hlist : env.listing with
      | threw =>
        rw [refresh_threw env cache0 rootPath m0 hinit hlist]
        simp [RefreshOutcome.isFailure]
      | resp code content =>
        by_cases hc : code = 200
        · subst hc
          rw [show (refresh env cache0 rootPath).outcome.isFailure =
              ((refresh env cache0 rootPath).outcome).isFailure from rfl]
          rw [refresh_outcome_200 env cache0 rootPath m0 content hinit hlist]
          by_cases hu : env.uploadOk
          · by_cases hsv : env.saveConfigOk
            · rw [if_pos hu, if_pos hsv]
              simp only [RefreshOutcome.isFailure]
              constructor
              · intro hfalse; exact absurd hfalse (by simp)
              · rintro (h1 | h2 | ⟨c, ct, hct, hcne⟩ | ⟨_, _, hor⟩)
                · exact absurd h1 (by simp [hinit])
                · exact absurd h2 (by simp)
                · rw [ListOutcome.resp.injEq] at hct
                  exact absurd hct.1.symm hcne
                · rcases hor with h | h
                  · exact absurd h (by simp [hu])
                  · exact absurd h (by simp [hsv])
            · rw [if_pos hu, if_neg hsv]
              simp only [RefreshOutcome.isFailure, true_iff]
              refine Or.inr (Or.inr (Or.inr ⟨⟨content, rfl⟩, by simp [hinit],
                Or.inr ?_⟩))
              simpa using hsv
          · rw [if_neg hu]
            simp only [RefreshOutcome.isFailure, true_iff]
            refine Or.inr (Or.inr (Or.inr ⟨⟨content, rfl⟩, by simp [hinit],
              Or.inl ?_⟩))
            simpa using hu
        · rw [refresh_non200 env cache0 rootPath m0 code content hinit hlist hc]
          simp only [RefreshOutcome.isFailure, true_iff]
          exact Or.inr (Or.inr (Or.inl ⟨code, content, rfl, hc⟩))
  · cases cache0 with
    | some m => simp [initMeta]
    | none => cases env.load <;> simp [initMeta]
  · intro h0 hl
    subst h0
    rcases hl with h | h | h | h <;> rw [h] <;> rfl

/-- C4 witness: in the concrete run with a failing config save, the run
fails even though load, listing and upload all succeeded; and the
missing-file load outcome yields the fresh empty document. -/
theorem C4_witness :
    (refresh envSaveFail none "/").outcome.isFailure = true ∧
    initMeta none envSaveFail.load envSaveFail.nowStart = some ⟨[], 50⟩ := by
  have h := C4_amended_failure_sources envSaveFail none "/"
  constructor
  · exact h.1.mpr (Or.inr (Or.inr (Or.inr
      ⟨⟨[fileA, fileB], rfl⟩, by decide, Or.inr rfl⟩)))
  · exact h.2.2 rfl (Or.inl rfl)

/-- C5 counterexample: on a cached document with 25 folders (valid pages
1..3), the out-of-range page `-1` does not yield an empty slice: through
JavaScript slice's negative-index semantics, `start = -20` and `end = -10`
resolve to indices 5 and 15 and the call returns 10 records. -/
theorem C5_counterexample :
    doc25.folders.length = 25 ∧
    (listVideos doc25 (-1) 10).totalPages = 3 ∧
    (listVideos doc25 (-1) 10).list.length = 10 ∧
    (listVideos doc25 (-1) 10).list ≠ [] := by
  decide

/-- C5 (amended): `list` paginates with a 1-based page: for every cached
document with 25 folders, `list(page=2, pageSize=10)` returns exactly 10
records with `total = 25` and `totalPages = 3`, `list(page=4, pageSize=10)`
returns an empty record slice, and every out-of-range page beyond the last
(`page > totalPages`) yields an empty slice and never an error; negative
page values, however, index from the end of the sorted list via JavaScript
slice semantics and can yield a nonempty slice (see the counterexample). -/
theorem C5_amended_pagination (m : MetaInfo) (h : m.folders.length = 25) :
    (listVideos m 2 10).list.length = 10 ∧
    (listVideos m 2 10).total = 25 ∧
    (listVideos m 2 10).totalPages = 3 ∧
    (listVideos m 4 10).list = [] ∧
    (∀ page : Int, 3 < page → (listVideos m page 10).list = []) := by
  have hs : (jsSortBy byLastUpdatedDesc (m.folders.map toVideoItem)).length
      = 25 := by
    rw [sorted_length, h]
  refine ⟨?_, ?_, ?_, ?_, ?_⟩
  · rw [listVideos_list]
    rw [jsSlice_length _ _ _ (by norm_num) (by norm_num) (by rw [hs]; norm_num)]
    decide
  · rw [listVideos_total, h]
  · rw [listVideos_totalPages, h]
    decide
  · rw [listVideos_list]
    apply jsSlice_nil
    · norm_num
    · rw [hs]; norm_num
  · intro page hp
    rw [listVideos_list]
    apply jsSlice_nil
    · omega
    · rw [hs]; omega

/-- C5 witness: the amended pagination facts hold on the concrete 25-folder
document, including an out-of-range page beyond the last. -/
theorem C5_witness :
    (listVideos doc25 2 10).list.length = 10 ∧
    (listVideos doc25 2 10).total = 25 ∧
    (listVideos doc25 2 10).totalPages = 3 ∧
    (listVideos doc25 4 10).list = [] ∧
    (listVideos doc25 9 10).list = [] := by
  have h := C5_amended_pagination doc25 (by decide)
  exact ⟨h.1, h.2.1, h.2.2.1, h.2.2.2.1, h.2.2.2.2 9 (by decide)⟩

/-- C6: a refresh run starting from an empty document over a listing of
exactly three distinct unseen directories, where the search provider returns
no match for exactly one of them (the one at index `k`), completes
successfully reporting `total = 3`, `new = 2`, `existing = 0`, `errors = 1`,
and the uploaded document's keys are exactly the two matched folder names in
listing order; the single enrichment failure does not abort the run. -/
theorem C6_one_miss_of_three (env : RefreshEnv) (rootPath : String)
    (m0 : MetaInfo) (n1 n2 n3 : String) (i1 i2 i3 : TMDBItem)
    (d1 d2 d3 : OpenListFile) (k : Nat) (hk : k < 3)
    (h12 : n1 ≠ n2) (h13 : n1 ≠ n3) (h23 : n2 ≠ n3)
    (hd1 : d1.name = n1) (hd2 : d2.name = n2) (hd3 : d3.name = n3)
    (hdir1 : d1.is_dir = true) (hdir2 : d2.is_dir = true)
    (hdir3 : d3.is_dir = true)
    (hinit : initMeta none env.load env.nowStart = some m0)
    (hm0 : m0.folders = [])
    (hlist : env.listing = ListOutcome.resp 200 [d1, d2, d3])
    (hs1 : env.search n1 = if k = 0 then ⟨404, none⟩ else ⟨200, some i1⟩)
    (hs2 : env.search n2 = if k = 1 then ⟨404, none⟩ else ⟨200, some i2⟩)
    (hs3 : env.search n3 = if k = 2 then ⟨404, none⟩ else ⟨200, some i3⟩)
    (hu : env.uploadOk = true) (hsv : env.saveConfigOk = true) :
    (refresh env none rootPath).outcome =
      RefreshOutcome.success 3 2 0 1 env.nowFinish ∧
    ∃ dd, (refresh env none rootPath).uploaded = some dd ∧
      dd.folders.map Prod.fst = [n1, n2, n3].eraseIdx k := by
  have hdirs : List.filter (fun f => f.is_dir) [d1, d2, d3] = [d1, d2, d3] := by
    simp [hdir1, hdir2, hdir3]
  rw [refresh_outcome_200 env none rootPath m0 [d1, d2, d3] hinit hlist,
    refresh_uploaded_200 env none rootPath m0 [d1, d2, d3] hinit hlist]
  simp only [hu, hsv, if_true]
  interval_cases k
  · have ha : env.search n1 = ⟨404, none⟩ := by simpa using hs1
    have hb : env.search n2 = ⟨200, some i2⟩ := by simpa using hs2
    have hc : env.search n3 = ⟨200, some i3⟩ := by simpa using hs3
    constructor
    · simp [runLoop, hdirs, hm0, enrichLoop, searchStep, obsFor, lookupF,
        hd1, hd2, hd3, ha, hb, hc, h12, h13, h23]
    · refine ⟨_, rfl, ?_⟩
      simp [runLoop, hdirs, hm0, enrichLoop, searchStep, obsFor, lookupF,
        hd1, hd2, hd3, ha, hb, hc, h12, h13, h23, List.eraseIdx]
  · have ha : env.search n1 = ⟨200, some i1⟩ := by simpa using hs1
    have hb : env.search n2 = ⟨404, none⟩ := by simpa using hs2
    have hc : env.search n3 = ⟨200, some i3⟩ := by simpa using hs3
    constructor
    · simp [runLoop, hdirs, hm0, enrichLoop, searchStep, obsFor, lookupF,
        hd1, hd2, hd3, ha, hb, hc, h12, h13, h23]
    · refine ⟨_, rfl, ?_⟩
      simp [runLoop, hdirs, hm0, enrichLoop, searchStep, obsFor, lookupF,
        hd1, hd2, hd3, ha, hb, hc, h12, h13, h23, List.eraseIdx]
  · have ha : env.search n1 = ⟨200, some i1⟩ := by simpa using hs1
    have hb : env.search n2 = ⟨200, some i2⟩ := by simpa using hs2
    have hc : env.search n3 = ⟨404, none⟩ := by simpa using hs3
    constructor
    · simp [runLoop, hdirs, hm0, enrichLoop, searchStep, obsFor, lookupF,
        hd1, hd2, hd3, ha, hb, hc, h12, h13, h23]
    · refine ⟨_, rfl, ?_⟩
      simp [runLoop, hdirs, hm0, enrichLoop, searchStep, obsFor, lookupF,
        hd1, hd2, hd3, ha, hb, hc, h12, h13, h23, List.eraseIdx]

/-- C6 witness: the concrete run over `A`, `B`, `C` where only `A` has no
match reports `new = 2`, `errors = 1` and uploads exactly the keys `B` and
`C`. -/
theorem C6_witness :
    (refresh envC6 none "/").outcome = RefreshOutcome.success 3 2 0 1 70 ∧
    ∃ dd, (refresh envC6 none "/").uploaded = some dd ∧
      dd.folders.map Prod.fst = ["B", "C"] := by
  have h := C6_one_miss_of_three envC6 "/" ⟨[], 50⟩ "A" "B" "C"
    itemA itemB itemC fileA fileB fileC 0 (by decide)
    (by decide) (by decide) (by decide)
    rfl rfl rfl rfl rfl rfl rfl rfl rfl
    (by decide) (by decide) (by decide) rfl rfl
  exact ⟨h.1, h.2⟩
